import Mathlib

/-!
Verification of the k8-api repository core against its specification.

Shallow embedding of the relevant source functions:
  - src/k8-client/src/wstream.rs           (WatchStream chunk framing)
  - src/k8-client/src/uri.rs               (prefix_uri, items_uri, item_uri)
  - src/k8-client/src/client/client_impl.rs (handle_request, handle_request_bytes,
                                             retrieve_item, delete_item_with_option)
  - src/k8-metadata-client/src/client.rs   (apply, watch_stream_now)
  - src/k8-diff/src/json/diff.rs           (Changes for Value)
  - src/k8-types/src/core/service.rs       (ServiceSpec::make_same)
  - src/k8-client/src/cert.rs              (configure_out_of_cluster)

Bytes are modelled as Nat, byte strings as List Nat, Rust String as Lean String.
-/

namespace K8Api

/-! ## WatchStream (src/k8-client/src/wstream.rs)

The stream holds a buffer of bytes. Each poll drains every chunk the inner
stream has ready (a burst), appends them to the buffer, then emits at most one
document: the bytes before the first separator.  After the inner stream closes
it keeps emitting one document per poll until the buffer has no separator,
then emits a non-empty residual, then ends. -/

/-- Separator between documents: the newline byte (SEPARATOR in wstream.rs). -/
def SEPARATOR : Nat := 10

/-- Embedding of the emission step in WatchStream::poll_next: find the first
separator position i, keep bytes after it (split_off(i+1)) as the remainder,
emit the bytes before it (truncate removes the separator itself).
Returns none when the buffer has no separator. -/
def extractOne : List Nat → Option (List Nat × List Nat)
  | [] => none
  | c :: rest =>
    if c = SEPARATOR then some ([], rest)
    else
      match extractOne rest with
      | some (doc, rem) => some (c :: doc, rem)
      | none => none

theorem extractOne_some_spec : ∀ (l d r : List Nat),
    extractOne l = some (d, r) → l = d ++ SEPARATOR :: r ∧ SEPARATOR ∉ d := by
  intro l
  induction l with
  | nil => intro d r h; simp [extractOne] at h
  | cons c rest ih =>
    intro d r h
    by_cases hc : c = SEPARATOR
    · simp [extractOne, hc] at h
      obtain ⟨hd, hr⟩ := h
      subst hd; subst hr
      simp [hc]
    · simp [extractOne, hc] at h
      cases hrest : extractOne rest with
      | none => rw [hrest] at h; simp at h
      | some p =>
        obtain ⟨d0, r0⟩ := p
        rw [hrest] at h
        simp at h
        obtain ⟨hd, hr⟩ := h
        obtain ⟨hl, hnot⟩ := ih d0 r0 hrest
        subst hd; subst hr
        constructor
        · simp [hl]
        · simp [hnot]
          exact fun hcc => hc hcc.symm

theorem extractOne_none_spec : ∀ (l : List Nat),
    extractOne l = none → SEPARATOR ∉ l := by
  intro l
  induction l with
  | nil => intro _; simp
  | cons c rest ih =>
    intro h
    by_cases hc : c = SEPARATOR
    · simp [extractOne, hc] at h
    · simp [extractOne, hc] at h
      cases hrest : extractOne rest with
      | none =>
        simp
        exact ⟨fun hcc => hc hcc.symm, ih hrest⟩
      | some p => obtain ⟨d0, r0⟩ := p; rw [hrest] at h; simp at h

theorem extractOne_append_sep {d : List Nat} (r : List Nat) (hd : SEPARATOR ∉ d) :
    extractOne (d ++ SEPARATOR :: r) = some (d, r) := by
  induction d with
  | nil => simp [extractOne]
  | cons c d0 ih =>
    simp at hd
    obtain ⟨hc, hd0⟩ := hd
    have hcn : ¬ c = SEPARATOR := fun h => hc h.symm
    simp [extractOne, hcn, ih hd0]

/-- Length bound used for termination of the done-phase loop. -/
theorem extractOne_some_length {l d r : List Nat} (h : extractOne l = some (d, r)) :
    r.length < l.length := by
  obtain ⟨hl, _⟩ := extractOne_some_spec l d r h
  subst hl
  simp
  omega

/-- Embedding of the polls after the inner stream closed (done = true in
WatchStream::poll_next): each poll emits the bytes before the first separator;
once no separator is left, a non-empty residual is emitted and the stream
ends. -/
def drainDone (buffer : List Nat) : List (List Nat) :=
  match h : extractOne buffer with
  | some (doc, rem) => doc :: drainDone rem
  | none => if buffer.isEmpty then [] else [buffer]
termination_by buffer.length
decreasing_by exact extractOne_some_length h

theorem drainDone_extract {buffer d r : List Nat} (h : extractOne buffer = some (d, r)) :
    drainDone buffer = d :: drainDone r := by
  rw [drainDone]
  split
  · rename_i d0 r0 h0
    rw [h0] at h
    simp at h
    obtain ⟨hd, hr⟩ := h
    rw [hd, hr]
  · rename_i h0
    rw [h0] at h
    simp at h

theorem drainDone_no_sep {buffer : List Nat} (h : extractOne buffer = none) :
    drainDone buffer = if buffer.isEmpty then [] else [buffer] := by
  rw [drainDone]
  split
  · rename_i d0 r0 h0
    rw [h0] at h
    simp at h
  · rfl

/-- Specification-side splitter, modelled from the spec's words: documents are
the maximal runs of bytes between separators, and a trailing non-empty
residual is emitted at the end of input. -/
def splitDocs : List Nat → List (List Nat)
  | [] => []
  | c :: rest =>
    if c = SEPARATOR then [] :: splitDocs rest
    else
      match splitDocs rest with
      | [] => [[c]]
      | d :: ds => (c :: d) :: ds

theorem splitDocs_cons_ne {c : Nat} (rest : List Nat) (hc : ¬ c = SEPARATOR) :
    splitDocs (c :: rest)
      = match splitDocs rest with
        | [] => [[c]]
        | d :: ds => (c :: d) :: ds := by
  conv_lhs => rw [splitDocs.eq_def]
  simp [hc]

theorem drainDone_eq_splitDocs_aux : ∀ (n : Nat) (l : List Nat), l.length ≤ n →
    drainDone l = splitDocs l := by
  intro n
  induction n with
  | zero =>
    intro l hl
    have : l = [] := List.eq_nil_of_length_eq_zero (Nat.le_zero.mp hl)
    subst this
    rw [drainDone]
    simp [extractOne, splitDocs]
  | succ n ih =>
    intro l hl
    cases l with
    | nil =>
      rw [drainDone]
      simp [extractOne, splitDocs]
    | cons c rest =>
      simp at hl
      by_cases hc : c = SEPARATOR
      · have hx : extractOne (c :: rest) = some ([], rest) := by simp [extractOne, hc]
        rw [drainDone_extract hx]
        simp [splitDocs, hc, ih rest hl]
      · cases hrest : extractOne rest with
        | some p =>
          obtain ⟨d0, r0⟩ := p
          have hx : extractOne (c :: rest) = some (c :: d0, r0) := by
            simp [extractOne, hc, hrest]
          rw [drainDone_extract hx]
          have h1 : drainDone rest = splitDocs rest := ih rest hl
          have hlt : r0.length < rest.length := extractOne_some_length hrest
          have h2 : drainDone r0 = splitDocs r0 := ih r0 (by omega)
          rw [drainDone_extract hrest] at h1
          simp [splitDocs, hc, ← h1, h2]
        | none =>
          have hx : extractOne (c :: rest) = none := by
            simp [extractOne, hc, hrest]
          rw [drainDone_no_sep hx]
          have h1 : drainDone rest = splitDocs rest := ih rest hl
          rw [drainDone_no_sep hrest] at h1
          cases rest with
          | nil => simp [splitDocs, hc] at h1 ⊢
          | cons c2 r2 =>
            simp at h1
            rw [splitDocs_cons_ne _ hc, ← h1]
            simp

theorem drainDone_eq_splitDocs (l : List Nat) : drainDone l = splitDocs l :=
  drainDone_eq_splitDocs_aux l.length l (Nat.le_refl _)

/-- Embedding of the polls before the inner stream closes: each poll appends
one burst of ready chunks to the buffer, then emits at most one document.
Returns the emitted documents and the final buffer. -/
def watchPhase1 : List Nat → List (List (List Nat)) → List (List Nat) × List Nat
  | buf, [] => ([], buf)
  | buf, burst :: rest =>
    let buf2 := buf ++ burst.flatten
    match extractOne buf2 with
    | some (doc, rem) =>
      let p := watchPhase1 rem rest
      (doc :: p.1, p.2)
    | none => watchPhase1 buf2 rest

/-- Full run of the WatchStream on a schedule of bursts (the chunks the inner
stream hands over at each poll), polled to completion after the inner stream
closes. -/
def runWatch (bursts : List (List (List Nat))) : List (List Nat) :=
  let p := watchPhase1 [] bursts
  p.1 ++ drainDone p.2

/-- Feeding a list of chunks, one chunk per poll: the schedule the claim talks
about. -/
def feedChunks (chunks : List (List Nat)) : List (List Nat) :=
  runWatch (chunks.map (fun c => [c]))

theorem watchPhase1_spec : ∀ (bursts : List (List (List Nat))) (buf : List Nat),
    ((watchPhase1 buf bursts).1.map (fun d => d ++ [SEPARATOR])).flatten
        ++ (watchPhase1 buf bursts).2
      = buf ++ (bursts.map List.flatten).flatten
    ∧ ∀ d ∈ (watchPhase1 buf bursts).1, SEPARATOR ∉ d := by
  intro bursts
  induction bursts with
  | nil => intro buf; simp [watchPhase1]
  | cons burst rest ih =>
    intro buf
    cases hx : extractOne (buf ++ burst.flatten) with
    | some p =>
      obtain ⟨doc, rem⟩ := p
      have hw : watchPhase1 buf (burst :: rest)
          = (doc :: (watchPhase1 rem rest).1, (watchPhase1 rem rest).2) := by
        simp [watchPhase1, hx]
      obtain ⟨hbuf, hsep⟩ := extractOne_some_spec _ _ _ hx
      obtain ⟨ih1, ih2⟩ := ih rem
      rw [hw]
      constructor
      · simp only [List.map_cons, List.flatten_cons, List.append_assoc]
        rw [ih1]
        rw [← List.append_assoc buf]
        rw [hbuf]
        simp
      · intro d hd
        simp at hd
        cases hd with
        | inl h => rw [h]; exact hsep
        | inr h => exact ih2 d h
    | none =>
      have hw : watchPhase1 buf (burst :: rest) = watchPhase1 (buf ++ burst.flatten) rest := by
        simp [watchPhase1, hx]
      obtain ⟨ih1, ih2⟩ := ih (buf ++ burst.flatten)
      rw [hw]
      refine ⟨?_, ih2⟩
      rw [ih1]
      simp

theorem drainDone_doc_cons {d : List Nat} (rest : List Nat) (hd : SEPARATOR ∉ d) :
    drainDone (d ++ SEPARATOR :: rest) = d :: drainDone rest :=
  drainDone_extract (extractOne_append_sep rest hd)

theorem drainDone_docs_append : ∀ (docs : List (List Nat)) (buf : List Nat),
    (∀ d ∈ docs, SEPARATOR ∉ d) →
    drainDone ((docs.map (fun d => d ++ [SEPARATOR])).flatten ++ buf)
      = docs ++ drainDone buf := by
  intro docs
  induction docs with
  | nil => intro buf _; simp
  | cons d ds ih =>
    intro buf hsep
    have hd : SEPARATOR ∉ d := hsep d (by simp)
    have hds : ∀ x ∈ ds, SEPARATOR ∉ x := fun x hx => hsep x (by simp [hx])
    have heq : (((d :: ds).map (fun x => x ++ [SEPARATOR])).flatten ++ buf)
        = d ++ SEPARATOR :: ((ds.map (fun x => x ++ [SEPARATOR])).flatten ++ buf) := by
      simp
    rw [heq, drainDone_doc_cons _ hd, ih buf hds]
    simp

/-- Master theorem: the emitted documents depend only on the concatenation of
all bytes the inner stream delivers, regardless of how they are partitioned
into chunks and how the chunks are grouped into polls. -/
theorem runWatch_eq_splitDocs (bursts : List (List (List Nat))) :
    runWatch bursts = splitDocs (bursts.map List.flatten).flatten := by
  obtain ⟨h1, h2⟩ := watchPhase1_spec bursts []
  simp only [List.nil_append] at h1
  show (watchPhase1 [] bursts).1 ++ drainDone (watchPhase1 [] bursts).2 = _
  rw [← drainDone_eq_splitDocs, ← h1]
  exact (drainDone_docs_append _ _ h2).symm

theorem feedChunks_eq_splitDocs (chunks : List (List Nat)) :
    feedChunks chunks = splitDocs chunks.flatten := by
  rw [feedChunks, runWatch_eq_splitDocs]
  congr 1
  induction chunks with
  | nil => rfl
  | cons c cs ih =>
    simp [List.map_map] at ih
    simp [ih]

/-- Claim C2: for every byte sequence b and every partition of b into chunks,
feeding the chunks to the WatchStream yields exactly the documents of feeding
b as one single chunk, and those documents are the maximal runs of bytes
between separators with a trailing non-empty residual emitted on close. -/
theorem claim_C2_chunk_stream_determinism :
    (∀ chunks : List (List Nat), feedChunks chunks = feedChunks [chunks.flatten])
    ∧ (∀ b : List Nat, feedChunks [b] = splitDocs b) := by
  constructor
  · intro chunks
    rw [feedChunks_eq_splitDocs, feedChunks_eq_splitDocs]
    simp
  · intro b
    rw [feedChunks_eq_splitDocs]
    simp

theorem drainDone_mem_no_sep_aux : ∀ (n : Nat) (l : List Nat), l.length ≤ n →
    ∀ d ∈ drainDone l, SEPARATOR ∉ d := by
  intro n
  induction n with
  | zero =>
    intro l hl d hd
    have : l = [] := List.eq_nil_of_length_eq_zero (Nat.le_zero.mp hl)
    subst this
    rw [drainDone] at hd
    simp [extractOne] at hd
  | succ n ih =>
    intro l hl d hd
    cases hx : extractOne l with
    | some p =>
      obtain ⟨d0, r0⟩ := p
      rw [drainDone_extract hx] at hd
      obtain ⟨hle, hsep⟩ := extractOne_some_spec _ _ _ hx
      simp at hd
      cases hd with
      | inl h => rw [h]; exact hsep
      | inr h =>
        have hlt : r0.length < l.length := extractOne_some_length hx
        exact ih r0 (by omega) d h
    | none =>
      rw [drainDone_no_sep hx] at hd
      by_cases he : l.isEmpty
      · simp [he] at hd
      · simp [he] at hd
        rw [hd]
        exact extractOne_none_spec l hx

/-- Claim C10: no document emitted by the WatchStream contains the separator
byte: a document produced by a separator match excludes the separator, and
the residual emitted on close is only emitted when it has no separator. -/
theorem claim_C10_no_separator_in_documents (bursts : List (List (List Nat)))
    (d : List Nat) (hd : d ∈ runWatch bursts) : SEPARATOR ∉ d := by
  rw [runWatch_eq_splitDocs, ← drainDone_eq_splitDocs] at hd
  exact drainDone_mem_no_sep_aux _ _ (Nat.le_refl _) d hd

/-- Witness for claim C10 at a concrete input: the stream over the single
chunk [97, 10, 98] emits [97] as a document, and it has no separator. -/
theorem claim_C10_witness :
    [97] ∈ runWatch [[[97, SEPARATOR, 98]]]
    ∧ SEPARATOR ∉ [97] :=
  ⟨by decide, claim_C10_no_separator_in_documents [[[97, SEPARATOR, 98]]] [97] (by decide)⟩

/-! ## Resource descriptors and URI building (src/k8-client/src/uri.rs,
src/k8-obj-metadata/src/crd.rs, src/k8-metadata-client/src/client.rs) -/

/-- Names record of a resource descriptor (CrdNames in crd.rs). -/
structure CrdNames where
  kind : String
  plural : String
  singular : String
deriving DecidableEq

/-- Resource descriptor (Crd in crd.rs). -/
structure Crd where
  group : String
  version : String
  names : CrdNames
deriving DecidableEq

/-- Namespace selector (NameSpace in k8-metadata-client/src/client.rs). -/
inductive NameSpace where
  | all
  | named (name : String)
deriving DecidableEq

/-- NameSpace::is_all. -/
def NameSpace.is_all : NameSpace → Bool
  | .all => true
  | .named _ => false

/-- NameSpace::named (the accessor; returns "all" for the All selector). -/
def NameSpace.namedStr : NameSpace → String
  | .all => "all"
  | .named n => n

/-- List options record (ListOptions in k8-obj-metadata/src/options.rs, re-exported
as k8_types::options; all fields optional, serialized camelCase, with the
continu field renamed to continue). -/
structure ListOptions where
  pretty : Option Bool := none
  continu : Option String := none
  field_selector : Option String := none
  include_uninitialized : Option Bool := none
  label_selector : Option String := none
  limit : Option Nat := none
  resource_version : Option String := none
  timeout_seconds : Option Nat := none
  watch : Option Bool := none

/-- Rendering of a boolean by the query-string serializer. -/
def boolQS (b : Bool) : String := if b then "true" else "false"

/-- Uppercase hex digit for percent-encoding. -/
def hexDigit (n : Nat) : Char :=
  if n < 10 then Char.ofNat (48 + n) else Char.ofNat (55 + n)

/-- Percent-encoding of one character (ASCII fragment of the urlencoding used
by the serde_qs crate): unreserved characters pass through, others become a
percent escape. -/
def qsEncodeChar (c : Char) : List Char :=
  if c.isAlphanum ∨ c = '-' ∨ c = '_' ∨ c = '.' ∨ c = '~' then [c]
  else ['%', hexDigit (c.toNat / 16 % 16), hexDigit (c.toNat % 16)]

/-- Percent-encoding of a string value. -/
def qsEncode (s : String) : String := String.mk (s.data.map qsEncodeChar).flatten

/-- One optional field of the options record: serialized as a single key/value
pair when present, omitted entirely when absent. -/
def optField {α : Type} (key : String) (render : α → String) : Option α → List (String × String)
  | some v => [(key, render v)]
  | none => []

/-- Model of serde_qs::to_string on ListOptions (the serde_qs crate is external
to the repository; its observable behavior on this record is pinned by the
repository's own tests, options.rs test_list_query and the uri.rs tests):
present fields are emitted in declaration order as camelCase key=value pairs
joined by ampersands, absent fields are omitted. -/
def qsPairs (opt : ListOptions) : List (String × String) :=
  optField "pretty" boolQS opt.pretty
    ++ optField "continue" qsEncode opt.continu
    ++ optField "fieldSelector" qsEncode opt.field_selector
    ++ optField "includeUninitialized" boolQS opt.include_uninitialized
    ++ optField "labelSelector" qsEncode opt.label_selector
    ++ optField "limit" (fun n => toString n) opt.limit
    ++ optField "resourceVersion" qsEncode opt.resource_version
    ++ optField "timeoutSeconds" (fun n => toString n) opt.timeout_seconds
    ++ optField "watch" boolQS opt.watch

/-- Model of serde_qs::to_string on ListOptions, rendered. -/
def serdeQS (opt : ListOptions) : String :=
  String.intercalate "&" ((qsPairs opt).map (fun p => p.1 ++ "=" ++ p.2))

/-- Embedding of prefix_uri in uri.rs: /api for the core group, /apis/group
otherwise; the namespaces segment appears exactly when the selector is not
All; an options record, when present, is serialized after a question mark. -/
def prefix_uri (crd : Crd) (host : String) (ns : NameSpace) (options : Option ListOptions) :
    String :=
  let apiPre := if crd.group = "core" then "api" else "apis/" ++ crd.group
  let query :=
    match options with
    | some opt => "?" ++ serdeQS opt
    | none => ""
  if ns.is_all then
    host ++ "/" ++ apiPre ++ "/" ++ crd.version ++ "/" ++ crd.names.plural ++ query
  else
    host ++ "/" ++ apiPre ++ "/" ++ crd.version ++ "/namespaces/" ++ ns.namedStr ++ "/"
      ++ crd.names.plural ++ query

/-- Embedding of items_uri in uri.rs: a non-namespaced kind (S::NAME_SPACED
false) forces the All selector. The namespaced flag stands for the kind's
NAME_SPACED associated constant and the crd for S::metadata(). -/
def items_uri (namespaced : Bool) (crd : Crd) (host : String) (nsArg : NameSpace)
    (list_options : Option ListOptions) : String :=
  let ns := if namespaced then nsArg else NameSpace.all
  prefix_uri crd host ns list_options

/-- Embedding of item_uri in uri.rs. The query argument models
query_params.and_then(serde_qs::to_string(..).ok()): none when no record is
supplied, some none when serialization fails, some (some v) on success.
The final URL parse is not modelled; the claims are about the string. -/
def item_uri (namespaced : Bool) (crd : Crd) (host name nsName : String)
    (sub_resource : Option String) (query : Option (Option String)) : String :=
  let ns := if namespaced then NameSpace.named nsName else NameSpace.all
  let pre := prefix_uri crd host ns none
  let sub := sub_resource.getD ""
  let q :=
    match query with
    | some (some v) => "?" ++ v
    | some none => ""
    | none => ""
  pre ++ "/" ++ name ++ sub ++ q

/-- Data of a string append. -/
theorem strData_append (a b : String) : (a ++ b).data = a.data ++ b.data := by
  cases a; cases b; rfl

/-- The four characters whose absence makes a URL free of the /apis/ marker. -/
def apisChars : List Char := ['a', 'p', 'i', 's']

theorem infix_append_cases {α : Type} (p a b : List α) (h : p <:+: a ++ b) :
    (∃ s, s <:+ a ∧ s ≠ [] ∧ p <+: s ++ b) ∨ p <:+: b := by
  induction a with
  | nil => right; simpa using h
  | cons c a0 ih =>
    rw [List.cons_append] at h
    rcases List.infix_cons_iff.mp h with h1 | h2
    · left
      exact ⟨c :: a0, List.suffix_refl _, by simp, by simpa using h1⟩
    · rcases ih h2 with ⟨s, hs, hne, hp⟩ | hb
      · left
        exact ⟨s, hs.trans (List.suffix_cons c a0), hne, hp⟩
      · right; exact hb

/-- Decomposition of an infix occurrence over an append: the pattern occurs in
the left part, in the right part, or spans the boundary. -/
theorem infix_append_split {α : Type} (p a b : List α) (h : p <:+: a ++ b) :
    p <:+: a ∨ p <:+: b
      ∨ ∃ s t, s ++ t = p ∧ s ≠ [] ∧ t ≠ [] ∧ s <:+ a ∧ t <+: b := by
  rcases infix_append_cases p a b h with ⟨s, hs, hne, hp⟩ | hb
  · rcases List.prefix_or_prefix_of_prefix hp (List.prefix_append s b) with hps | hsp
    · left
      exact hps.isInfix.trans hs.isInfix
    · obtain ⟨t, ht⟩ := hsp
      cases t with
      | nil =>
        left
        have : p = s := by rw [← ht]; simp
        rw [this]
        exact hs.isInfix
      | cons x ts =>
        right; right
        refine ⟨s, x :: ts, ht, hne, by simp, hs, ?_⟩
        obtain ⟨r, hr⟩ := hp
        rw [← ht, List.append_assoc] at hr
        exact ⟨r, List.append_cancel_left hr⟩
  · right; left; exact hb

theorem apis_split_cases (s t : List Char) (h : s ++ t = apisChars)
    (hs : s ≠ []) (ht : t ≠ []) :
    s = ['a'] ∧ t = ['p', 'i', 's']
    ∨ s = ['a', 'p'] ∧ t = ['i', 's']
    ∨ s = ['a', 'p', 'i'] ∧ t = ['s'] := by
  cases s with
  | nil => exact absurd rfl hs
  | cons c1 s1 =>
    cases s1 with
    | nil =>
      simp [apisChars] at h
      obtain ⟨h1, h2⟩ := h
      exact Or.inl ⟨by rw [h1], h2⟩
    | cons c2 s2 =>
      cases s2 with
      | nil =>
        simp [apisChars] at h
        obtain ⟨h1, h2, h3⟩ := h
        exact Or.inr (Or.inl ⟨by rw [h1, h2], h3⟩)
      | cons c3 s3 =>
        cases s3 with
        | nil =>
          simp [apisChars] at h
          obtain ⟨h1, h2, h3, h4⟩ := h
          exact Or.inr (Or.inr ⟨by rw [h1, h2, h3], h4⟩)
        | cons c4 s4 =>
          cases s4 with
          | nil =>
            simp [apisChars] at h
            obtain ⟨-, -, -, -, h5⟩ := h
            exact absurd h5 ht
          | cons c5 s5 => simp [apisChars] at h

/-- The boundary-spanning occurrence is impossible when the left side admits
none of the proper prefixes of apis as a suffix. -/
theorem apis_not_infix_append_left (a b : List Char)
    (ha : ¬ apisChars <:+: a) (hb : ¬ apisChars <:+: b)
    (h1 : ¬ ['a'] <:+ a) (h2 : ¬ ['a', 'p'] <:+ a) (h3 : ¬ ['a', 'p', 'i'] <:+ a) :
    ¬ apisChars <:+: a ++ b := by
  intro h
  rcases infix_append_split _ _ _ h with h | h | ⟨s, t, hst, hs, ht, hsa, htb⟩
  · exact ha h
  · exact hb h
  · rcases apis_split_cases s t hst hs ht with ⟨h4, _⟩ | ⟨h4, _⟩ | ⟨h4, _⟩
    · exact h1 (h4 ▸ hsa)
    · exact h2 (h4 ▸ hsa)
    · exact h3 (h4 ▸ hsa)

/-- The boundary-spanning occurrence is impossible when the right side admits
none of the proper suffixes of apis as a prefix. -/
theorem apis_not_infix_append_right (a b : List Char)
    (ha : ¬ apisChars <:+: a) (hb : ¬ apisChars <:+: b)
    (h1 : ¬ ['p', 'i', 's'] <+: b) (h2 : ¬ ['i', 's'] <+: b) (h3 : ¬ ['s'] <+: b) :
    ¬ apisChars <:+: a ++ b := by
  intro h
  rcases infix_append_split _ _ _ h with h | h | ⟨s, t, hst, hs, ht, hsa, htb⟩
  · exact ha h
  · exact hb h
  · rcases apis_split_cases s t hst hs ht with ⟨_, h4⟩ | ⟨_, h4⟩ | ⟨_, h4⟩
    · exact h1 (h4 ▸ htb)
    · exact h2 (h4 ▸ htb)
    · exact h3 (h4 ▸ htb)

theorem no_apis_tail_prefix (l : List Char)
    (hl : l.head? = none ∨ l.head? = some '/' ∨ l.head? = some '?') :
    ¬ ['p', 'i', 's'] <+: l ∧ ¬ ['i', 's'] <+: l ∧ ¬ ['s'] <+: l := by
  cases l with
  | nil => simp
  | cons c cl =>
    simp at hl
    refine ⟨?_, ?_, ?_⟩ <;> intro hp <;>
      rcases List.cons_prefix_cons.mp hp with ⟨hc, -⟩ <;>
      rcases hl with hl | hl <;> rw [← hc] at hl <;> simp at hl

/-- Occurrence over an append whose right side is empty or starts with a
slash or question mark. -/
theorem apis_not_infix_append_hd (a b : List Char)
    (ha : ¬ apisChars <:+: a) (hb : ¬ apisChars <:+: b)
    (hh : b.head? = none ∨ b.head? = some '/' ∨ b.head? = some '?') :
    ¬ apisChars <:+: a ++ b := by
  obtain ⟨n1, n2, n3⟩ := no_apis_tail_prefix b hh
  exact apis_not_infix_append_right a b ha hb n1 n2 n3

theorem dataSlash : "/".data = ['/'] := rfl

theorem dataApi : "api".data = ['a', 'p', 'i'] := rfl

theorem dataApiInfix : "/api/".data = ['/', 'a', 'p', 'i', '/'] := rfl

theorem dataApisInfix : "/apis/".data = ['/', 'a', 'p', 'i', 's', '/'] := rfl

theorem dataApisSl : "apis/".data = ['a', 'p', 'i', 's', '/'] := rfl

theorem dataNsp : "/namespaces/".data
    = ['/', 'n', 'a', 'm', 'e', 's', 'p', 'a', 'c', 'e', 's', '/'] := rfl

theorem dataNsp2 : "namespaces/".data
    = ['n', 'a', 'm', 'e', 's', 'p', 'a', 'c', 'e', 's', '/'] := rfl

theorem dataQm : "?".data = ['?'] := rfl

theorem dataEmpty : "".data = ([] : List Char) := rfl

/-- No apis marker in a core-group collection URL with a named namespace. -/
theorem apis_chain_named (H V N P Q : List Char)
    (hh : ¬ apisChars <:+: H) (hv : ¬ apisChars <:+: V)
    (hn : ¬ apisChars <:+: N) (hp : ¬ apisChars <:+: P)
    (hq : ¬ apisChars <:+: Q)
    (hqh : Q.head? = none ∨ Q.head? = some '?') :
    ¬ apisChars <:+:
      H ++ (['/'] ++ ("api".data ++ (['/'] ++ (V ++ ("/namespaces/".data
        ++ (N ++ (['/'] ++ (P ++ Q)))))))) := by
  have t1 : ¬ apisChars <:+: P ++ Q := by
    refine apis_not_infix_append_hd _ _ hp hq ?_
    rcases hqh with h | h
    · exact Or.inl h
    · exact Or.inr (Or.inr h)
  have t2 : ¬ apisChars <:+: ['/'] ++ (P ++ Q) :=
    apis_not_infix_append_left _ _ (by decide) t1 (by decide) (by decide) (by decide)
  have t3 : ¬ apisChars <:+: N ++ (['/'] ++ (P ++ Q)) :=
    apis_not_infix_append_hd _ _ hn t2 (Or.inr (Or.inl rfl))
  have t4 : ¬ apisChars <:+: "/namespaces/".data ++ (N ++ (['/'] ++ (P ++ Q))) :=
    apis_not_infix_append_left _ _ (by decide) t3 (by decide) (by decide) (by decide)
  have t5 : ¬ apisChars <:+: V ++ ("/namespaces/".data ++ (N ++ (['/'] ++ (P ++ Q)))) :=
    apis_not_infix_append_hd _ _ hv t4 (Or.inr (Or.inl rfl))
  have t6 : ¬ apisChars <:+: ['/'] ++ (V ++ ("/namespaces/".data ++ (N ++ (['/'] ++ (P ++ Q))))) :=
    apis_not_infix_append_left _ _ (by decide) t5 (by decide) (by decide) (by decide)
  have t7 : ¬ apisChars <:+: "api".data ++ (['/'] ++ (V ++ ("/namespaces/".data
      ++ (N ++ (['/'] ++ (P ++ Q)))))) :=
    apis_not_infix_append_hd _ _ (by decide) t6 (Or.inr (Or.inl rfl))
  have t8 : ¬ apisChars <:+: ['/'] ++ ("api".data ++ (['/'] ++ (V ++ ("/namespaces/".data
      ++ (N ++ (['/'] ++ (P ++ Q))))))) :=
    apis_not_infix_append_left _ _ (by decide) t7 (by decide) (by decide) (by decide)
  exact apis_not_infix_append_hd _ _ hh t8 (Or.inr (Or.inl rfl))

/-- No apis marker in a core-group collection URL over all namespaces. -/
theorem apis_chain_all (H V P Q : List Char)
    (hh : ¬ apisChars <:+: H) (hv : ¬ apisChars <:+: V)
    (hp : ¬ apisChars <:+: P) (hq : ¬ apisChars <:+: Q)
    (hqh : Q.head? = none ∨ Q.head? = some '?') :
    ¬ apisChars <:+: H ++ (['/'] ++ ("api".data ++ (['/'] ++ (V ++ (['/'] ++ (P ++ Q)))))) := by
  have t1 : ¬ apisChars <:+: P ++ Q := by
    refine apis_not_infix_append_hd _ _ hp hq ?_
    rcases hqh with h | h
    · exact Or.inl h
    · exact Or.inr (Or.inr h)
  have t2 : ¬ apisChars <:+: ['/'] ++ (P ++ Q) :=
    apis_not_infix_append_left _ _ (by decide) t1 (by decide) (by decide) (by decide)
  have t3 : ¬ apisChars <:+: V ++ (['/'] ++ (P ++ Q)) :=
    apis_not_infix_append_hd _ _ hv t2 (Or.inr (Or.inl rfl))
  have t4 : ¬ apisChars <:+: ['/'] ++ (V ++ (['/'] ++ (P ++ Q))) :=
    apis_not_infix_append_left _ _ (by decide) t3 (by decide) (by decide) (by decide)
  have t5 : ¬ apisChars <:+: "api".data ++ (['/'] ++ (V ++ (['/'] ++ (P ++ Q)))) :=
    apis_not_infix_append_hd _ _ (by decide) t4 (Or.inr (Or.inl rfl))
  have t6 : ¬ apisChars <:+: ['/'] ++ ("api".data ++ (['/'] ++ (V ++ (['/'] ++ (P ++ Q))))) :=
    apis_not_infix_append_left _ _ (by decide) t5 (by decide) (by decide) (by decide)
  exact apis_not_infix_append_hd _ _ hh t6 (Or.inr (Or.inl rfl))

/-- No apis marker in a query tail: empty, or question mark followed by an
apis-free serialized options string. -/
theorem apis_query_free (Q : List Char) (hq : ¬ apisChars <:+: Q) :
    ¬ apisChars <:+: ['?'] ++ Q :=
  apis_not_infix_append_left _ _ (by decide) hq (by decide) (by decide) (by decide)

/-- Segment of the collection URL as the specification words it:
namespaces/ns/plural exactly when the kind is namespaced and the selector is
a named namespace, otherwise the bare plural. -/
def uriSegment (namespaced : Bool) (crd : Crd) (ns : NameSpace) : String :=
  match namespaced, ns with
  | true, NameSpace.named n => "namespaces/" ++ n ++ "/" ++ crd.names.plural
  | _, _ => crd.names.plural

/-- Query tail of the collection URL as the specification words it. -/
def uriQuery : Option ListOptions → String
  | some o => "?" ++ serdeQS o
  | none => ""

/-- Claim C3: the collection URL is host/api/version/segment for the core
group and host/apis/group/version/segment otherwise, where segment is
namespaces/ns/plural exactly when the kind is namespaced and the selector is
a named namespace, and plural otherwise; core-group URLs never contain the
/apis/ marker (given that no component carries the four-character apis run
itself). -/
theorem claim_C3_collection_url_shapes (crd : Crd) (host : String) (namespaced : Bool)
    (nsSel : NameSpace) (opt : Option ListOptions) :
    (crd.group = "core" →
      items_uri namespaced crd host nsSel opt
        = host ++ "/api/" ++ crd.version ++ "/" ++ uriSegment namespaced crd nsSel
            ++ uriQuery opt)
    ∧ (crd.group ≠ "core" →
      items_uri namespaced crd host nsSel opt
        = host ++ "/apis/" ++ crd.group ++ "/" ++ crd.version ++ "/"
            ++ uriSegment namespaced crd nsSel ++ uriQuery opt)
    ∧ (crd.group = "core" →
      ¬ apisChars <:+: host.data → ¬ apisChars <:+: crd.version.data →
      ¬ apisChars <:+: nsSel.namedStr.data → ¬ apisChars <:+: crd.names.plural.data →
      (∀ o, opt = some o → ¬ apisChars <:+: (serdeQS o).data) →
      ¬ "/apis/".data <:+: (items_uri namespaced crd host nsSel opt).data) := by
  refine ⟨?_, ?_, ?_⟩
  · intro hcore
    apply String.ext
    cases namespaced <;> cases nsSel <;> cases opt <;>
      simp [items_uri, prefix_uri, uriSegment, uriQuery, hcore, NameSpace.is_all,
        NameSpace.namedStr, strData_append, dataSlash, dataApi, dataApiInfix, dataNsp,
        dataNsp2, dataQm, dataEmpty, List.append_assoc]
  · intro hcore
    apply String.ext
    cases namespaced <;> cases nsSel <;> cases opt <;>
      simp [items_uri, prefix_uri, uriSegment, uriQuery, hcore, NameSpace.is_all,
        NameSpace.namedStr, strData_append, dataSlash, dataApi, dataApiInfix, dataApisInfix,
        dataApisSl, dataNsp, dataNsp2, dataQm, dataEmpty, List.append_assoc]
  · intro hcore hh hv hn hp hq habs
    have h2 : apisChars <:+: (items_uri namespaced crd host nsSel opt).data :=
      List.IsInfix.trans (by decide) habs
    cases namespaced with
    | false =>
      cases opt with
      | none =>
        have hurl : (items_uri false crd host nsSel none).data
            = host.data ++ (['/'] ++ ("api".data ++ (['/'] ++ (crd.version.data
              ++ (['/'] ++ (crd.names.plural.data ++ ([] : List Char))))))) := by
          simp [items_uri, prefix_uri, hcore, NameSpace.is_all, strData_append,
            dataSlash, dataApi, dataEmpty, List.append_assoc]
        rw [hurl] at h2
        exact apis_chain_all _ _ _ [] hh hv hp (by decide) (Or.inl rfl) h2
      | some o =>
        have hq' : ¬ apisChars <:+: (serdeQS o).data := hq o rfl
        have hurl : (items_uri false crd host nsSel (some o)).data
            = host.data ++ (['/'] ++ ("api".data ++ (['/'] ++ (crd.version.data
              ++ (['/'] ++ (crd.names.plural.data ++ (['?'] ++ (serdeQS o).data))))))) := by
          simp [items_uri, prefix_uri, hcore, NameSpace.is_all, strData_append,
            dataSlash, dataApi, dataQm, List.append_assoc]
        rw [hurl] at h2
        exact apis_chain_all _ _ _ _ hh hv hp (apis_query_free _ hq') (Or.inr rfl) h2
    | true =>
      cases nsSel with
      | all =>
        cases opt with
        | none =>
          have hurl : (items_uri true crd host NameSpace.all none).data
              = host.data ++ (['/'] ++ ("api".data ++ (['/'] ++ (crd.version.data
                ++ (['/'] ++ (crd.names.plural.data ++ ([] : List Char))))))) := by
            simp [items_uri, prefix_uri, hcore, NameSpace.is_all, strData_append,
              dataSlash, dataApi, dataEmpty, List.append_assoc]
          rw [hurl] at h2
          exact apis_chain_all _ _ _ [] hh hv hp (by decide) (Or.inl rfl) h2
        | some o =>
          have hq' : ¬ apisChars <:+: (serdeQS o).data := hq o rfl
          have hurl : (items_uri true crd host NameSpace.all (some o)).data
              = host.data ++ (['/'] ++ ("api".data ++ (['/'] ++ (crd.version.data
                ++ (['/'] ++ (crd.names.plural.data ++ (['?'] ++ (serdeQS o).data))))))) := by
            simp [items_uri, prefix_uri, hcore, NameSpace.is_all, strData_append,
              dataSlash, dataApi, dataQm, List.append_assoc]
          rw [hurl] at h2
          exact apis_chain_all _ _ _ _ hh hv hp (apis_query_free _ hq') (Or.inr rfl) h2
      | named n =>
        simp [NameSpace.namedStr] at hn
        cases opt with
        | none =>
          have hurl : (items_uri true crd host (NameSpace.named n) none).data
              = host.data ++ (['/'] ++ ("api".data ++ (['/'] ++ (crd.version.data
                ++ ("/namespaces/".data ++ (n.data ++ (['/']
                  ++ (crd.names.plural.data ++ ([] : List Char))))))))) := by
            simp [items_uri, prefix_uri, hcore, NameSpace.is_all, NameSpace.namedStr,
              strData_append, dataSlash, dataApi, dataNsp, dataEmpty, List.append_assoc]
          rw [hurl] at h2
          exact apis_chain_named _ _ _ _ [] hh hv hn hp (by decide) (Or.inl rfl) h2
        | some o =>
          have hq' : ¬ apisChars <:+: (serdeQS o).data := hq o rfl
          have hurl : (items_uri true crd host (NameSpace.named n) (some o)).data
              = host.data ++ (['/'] ++ ("api".data ++ (['/'] ++ (crd.version.data
                ++ ("/namespaces/".data ++ (n.data ++ (['/']
                  ++ (crd.names.plural.data ++ (['?'] ++ (serdeQS o).data))))))))) := by
            simp [items_uri, prefix_uri, hcore, NameSpace.is_all, NameSpace.namedStr,
              strData_append, dataSlash, dataApi, dataNsp, dataQm, List.append_assoc]
          rw [hurl] at h2
          exact apis_chain_named _ _ _ _ _ hh hv hn hp (apis_query_free _ hq')
            (Or.inr rfl) h2

/-- The core-group descriptor used by the repository's own uri.rs tests. -/
def testCoreCrd : Crd :=
  { group := "core", version := "v1"
    names := { kind := "Item", plural := "items", singular := "item" } }

/-- Witness for claim C3 at a concrete input: the Item descriptor of the
repository's uri.rs tests, a named namespace and no options. -/
theorem claim_C3_witness :
    items_uri true testCoreCrd "https://localhost" (NameSpace.named "default") none
      = "https://localhost/api/v1/namespaces/default/items"
    ∧ ¬ "/apis/".data <:+:
        (items_uri true testCoreCrd "https://localhost" (NameSpace.named "default") none).data := by
  have h := claim_C3_collection_url_shapes testCoreCrd "https://localhost" true
    (NameSpace.named "default") none
  constructor
  · rw [h.1 rfl]
    decide
  · exact h.2.2 rfl (by decide) (by decide) (by decide) (by decide)
      (fun o ho => Option.noConfusion ho)

theorem optField_mem {α : Type} (key : String) (f : α → String) (o : Option α)
    (k v : String) (h : (k, v) ∈ optField key f o) : k = key ∧ o ≠ none := by
  cases o with
  | none => simp [optField] at h
  | some x =>
    simp [optField] at h
    exact ⟨h.1, by simp⟩

theorem qsPairs_key (opt : ListOptions) (k v : String) (h : (k, v) ∈ qsPairs opt) :
    (k = "pretty" ∧ opt.pretty ≠ none) ∨ (k = "continue" ∧ opt.continu ≠ none)
    ∨ (k = "fieldSelector" ∧ opt.field_selector ≠ none)
    ∨ (k = "includeUninitialized" ∧ opt.include_uninitialized ≠ none)
    ∨ (k = "labelSelector" ∧ opt.label_selector ≠ none)
    ∨ (k = "limit" ∧ opt.limit ≠ none)
    ∨ (k = "resourceVersion" ∧ opt.resource_version ≠ none)
    ∨ (k = "timeoutSeconds" ∧ opt.timeout_seconds ≠ none)
    ∨ (k = "watch" ∧ opt.watch ≠ none) := by
  rw [qsPairs] at h
  simp only [List.mem_append] at h
  rcases h with ((((((((h | h) | h) | h) | h) | h) | h) | h) | h)
  · exact Or.inl (optField_mem _ _ _ _ _ h)
  · exact Or.inr (Or.inl (optField_mem _ _ _ _ _ h))
  · exact Or.inr (Or.inr (Or.inl (optField_mem _ _ _ _ _ h)))
  · exact Or.inr (Or.inr (Or.inr (Or.inl (optField_mem _ _ _ _ _ h))))
  · exact Or.inr (Or.inr (Or.inr (Or.inr (Or.inl (optField_mem _ _ _ _ _ h)))))
  · exact Or.inr (Or.inr (Or.inr (Or.inr (Or.inr (Or.inl (optField_mem _ _ _ _ _ h))))))
  · exact Or.inr (Or.inr (Or.inr (Or.inr (Or.inr (Or.inr (Or.inl
      (optField_mem _ _ _ _ _ h)))))))
  · exact Or.inr (Or.inr (Or.inr (Or.inr (Or.inr (Or.inr (Or.inr (Or.inl
      (optField_mem _ _ _ _ _ h))))))))
  · exact Or.inr (Or.inr (Or.inr (Or.inr (Or.inr (Or.inr (Or.inr (Or.inr
      (optField_mem _ _ _ _ _ h))))))))

/-- Counterexample to claim C7: passing an options record with every field
absent still yields a URL containing a question mark, because prefix_uri
prepends the question mark unconditionally whenever a record is present. -/
theorem claim_C7_counterexample :
    '?' ∈ (prefix_uri testCoreCrd "https://localhost" (NameSpace.named "default")
      (some {})).data := by decide

/-- Claim C7 as amended: absent fields are omitted entirely from the query
string (every emitted pair stems from a present field), an all-absent record
serializes to the empty string, a URL built with no options record contains
no question mark (provided no component contains one), but a URL built with
an options record always carries the question mark, even when the record is
all-absent. -/
theorem claim_C7_amended_query_serialization :
    (∀ (opt : ListOptions) (k v : String), (k, v) ∈ qsPairs opt →
      (k = "pretty" ∧ opt.pretty ≠ none) ∨ (k = "continue" ∧ opt.continu ≠ none)
      ∨ (k = "fieldSelector" ∧ opt.field_selector ≠ none)
      ∨ (k = "includeUninitialized" ∧ opt.include_uninitialized ≠ none)
      ∨ (k = "labelSelector" ∧ opt.label_selector ≠ none)
      ∨ (k = "limit" ∧ opt.limit ≠ none)
      ∨ (k = "resourceVersion" ∧ opt.resource_version ≠ none)
      ∨ (k = "timeoutSeconds" ∧ opt.timeout_seconds ≠ none)
      ∨ (k = "watch" ∧ opt.watch ≠ none))
    ∧ serdeQS {} = ""
    ∧ (∀ (crd : Crd) (host : String) (nsSel : NameSpace),
        '?' ∉ host.data → '?' ∉ crd.group.data → '?' ∉ crd.version.data →
        '?' ∉ nsSel.namedStr.data → '?' ∉ crd.names.plural.data →
        '?' ∉ (prefix_uri crd host nsSel none).data)
    ∧ (∀ (crd : Crd) (host : String) (nsSel : NameSpace) (opt : ListOptions),
        prefix_uri crd host nsSel (some opt)
          = prefix_uri crd host nsSel none ++ "?" ++ serdeQS opt)
    ∧ (∀ (namespaced : Bool) (crd : Crd) (host name nsName : String)
        (sub : Option String) (v : String),
        item_uri namespaced crd host name nsName sub (some (some v))
          = item_uri namespaced crd host name nsName sub none ++ "?" ++ v)
    ∧ (∀ (namespaced : Bool) (crd : Crd) (host name nsName : String)
        (sub : Option String),
        item_uri namespaced crd host name nsName sub (some none)
          = item_uri namespaced crd host name nsName sub none) := by
  refine ⟨qsPairs_key, by decide, ?_, ?_, ?_, ?_⟩
  · intro crd host nsSel hh hg hv hn hp
    by_cases hcore : crd.group = "core" <;> cases nsSel <;>
      simp_all [prefix_uri, NameSpace.is_all, NameSpace.namedStr, strData_append,
        dataSlash, dataApi, dataApisSl, dataEmpty, List.mem_append]
  · intro crd host nsSel opt
    apply String.ext
    by_cases hcore : crd.group = "core" <;> cases nsSel <;>
      simp [prefix_uri, hcore, NameSpace.is_all, NameSpace.namedStr, strData_append,
        dataSlash, dataApi, dataApisSl, dataQm, dataEmpty, List.append_assoc]
  · intro namespaced crd host name nsName sub v
    apply String.ext
    cases namespaced <;>
      simp [item_uri, strData_append, dataQm, dataEmpty, List.append_assoc]
  · intro namespaced crd host name nsName sub
    cases namespaced <;> simp [item_uri]

/-- Witness for the amended claim C7: a concrete URL built without an options
record contains no question mark. -/
theorem claim_C7_witness :
    '?' ∉ (prefix_uri testCoreCrd "https://localhost" (NameSpace.named "default") none).data :=
  claim_C7_amended_query_serialization.2.2.1 testCoreCrd "https://localhost"
    (NameSpace.named "default") (by decide) (by decide) (by decide) (by decide) (by decide)

/-! ## JSON values, MetaStatus and the k8-diff engine
(serde_json::Value, k8_types::MetaStatus, src/k8-diff/src/json/diff.rs) -/

/-- JSON values (serde_json::Value). Numbers are modelled as integers; object
fields as an association list in insertion order. -/
inductive Json where
  | null
  | bool (b : Bool)
  | num (n : Int)
  | str (s : String)
  | arr (items : List Json)
  | obj (fields : List (String × Json))

mutual

/-- Structural equality of JSON values (PartialEq on serde_json::Value). -/
def Json.beq : Json → Json → Bool
  | .null, .null => true
  | .bool a, .bool b => a == b
  | .num a, .num b => a == b
  | .str a, .str b => a == b
  | .arr a, .arr b => Json.beqList a b
  | .obj a, .obj b => Json.beqFields a b
  | _, _ => false

def Json.beqList : List Json → List Json → Bool
  | [], [] => true
  | x :: xs, y :: ys => Json.beq x y && Json.beqList xs ys
  | _, _ => false

def Json.beqFields : List (String × Json) → List (String × Json) → Bool
  | [], [] => true
  | (k1, v1) :: xs, (k2, v2) :: ys => k1 == k2 && Json.beq v1 v2 && Json.beqFields xs ys
  | _, _ => false

end

mutual

theorem Json.beq_refl : ∀ v : Json, Json.beq v v = true
  | .null => rfl
  | .bool b => by simp [Json.beq]
  | .num n => by simp [Json.beq]
  | .str s => by simp [Json.beq]
  | .arr items => by simp [Json.beq, Json.beqList_refl items]
  | .obj fields => by simp [Json.beq, Json.beqFields_refl fields]

theorem Json.beqList_refl : ∀ l : List Json, Json.beqList l l = true
  | [] => rfl
  | x :: xs => by simp [Json.beqList, Json.beq_refl x, Json.beqList_refl xs]

theorem Json.beqFields_refl : ∀ l : List (String × Json), Json.beqFields l l = true
  | [] => rfl
  | (k, v) :: xs => by simp [Json.beqFields, Json.beq_refl v, Json.beqFields_refl xs]

end

/-- Lookup in a JSON object (serde_json::Map::get). -/
def jsonLookup (fields : List (String × Json)) (k : String) : Option Json :=
  (fields.find? (fun p => p.1 == k)).map Prod.snd

/-- Comparison of a JSON value against a string literal (Value == "Status" in
delete_item_with_option): true exactly for the equal string value. -/
def jsonIsStr (v : Json) (s : String) : Bool :=
  match v with
  | .str s2 => s2 == s
  | _ => false

/-- Generic status envelope of the API server (k8_types::MetaStatus; its
declaration file is not under src/, the shape follows the identical K8Status
record in src/k8-obj-metadata/src/metadata.rs and the field pattern matched
in client_impl.rs). -/
inductive StatusEnum where
  | success
  | failure
deriving DecidableEq

structure StatusDetails where
  name : String := ""
  group : Option String := none
  kind : String := ""
  uid : String := ""
deriving DecidableEq

structure MetaStatus where
  api_version : String := ""
  code : Option Nat := none
  details : Option StatusDetails := none
  kind : String := ""
  message : Option String := none
  reason : Option String := none
  status : StatusEnum := StatusEnum.failure
deriving DecidableEq

/-- Error kind of k8-diff (DiffError in k8-diff/src/lib.rs). -/
inductive DiffError where
  | diffValue
deriving DecidableEq

/-- Diff shapes (Diff in k8-diff/src/lib.rs), with the patch payload
specialized to the JSON patch object. -/
inductive JDiff where
  | none
  | delete
  | patch (p : List (String × Json))
  | replace (v : Json)
  | merge (v : Json)

/-- Modelled from the spec: PatchObject::diff of k8-diff/src/json/mod.rs is
not under src/. The spec only guarantees that the diff, applied to the old
comparison value, yields the new one under merge semantics; it is modelled as
the keys of the new object whose values differ from the old object's. -/
def patchObjectDiff (old new : List (String × Json)) :
    Except DiffError (List (String × Json)) :=
  Except.ok (new.filter (fun p =>
    match jsonLookup old p.1 with
    | some v => ! Json.beq v p.2
    | none => true))

/-- Embedding of Changes::diff for serde_json::Value
(src/k8-diff/src/json/diff.rs): equal values diff to None; a null old value or
a non-object new value is a Replace; two objects produce a Patch; an object
new value against a non-null non-object old value is a DiffValue error. -/
def jdiff (old new : Json) : Except DiffError JDiff :=
  if Json.beq old new then Except.ok JDiff.none
  else
    match old with
    | .null => Except.ok (JDiff.replace new)
    | _ =>
      match new with
      | .null => Except.ok (JDiff.replace Json.null)
      | .bool _ => Except.ok (JDiff.replace new)
      | .num _ => Except.ok (JDiff.replace new)
      | .str _ => Except.ok (JDiff.replace new)
      | .arr _ => Except.ok (JDiff.replace new)
      | .obj newFields =>
        match old with
        | .obj oldFields =>
          match patchObjectDiff oldFields newFields with
          | Except.ok p => Except.ok (JDiff.patch p)
          | Except.error e => Except.error e
        | _ => Except.error DiffError.diffValue

/-! ## Request dispatcher (src/k8-client/src/client/client_impl.rs)

A request is modelled as its header map plus an opaque rest (method, URI,
body); the transport as a function from attempt index to response; JSON
decoding as abstract decoders (serde instances are type-class dictionaries in
the source). Each dispatch function also returns the list of requests it
issued, in order. -/

/-- Request: opaque payload (method, URI, version, body) plus headers. -/
structure K8Request (ρ : Type) where
  rest : ρ
  headers : List (String × String)

/-- Response: status code and body bytes. -/
structure HttpResponse where
  status : Nat
  body : List Nat

/-- StatusCode::is_success: 2xx. -/
def isSuccessStatus (s : Nat) : Bool := decide (200 ≤ s ∧ s < 300)

/-- HeaderMap::insert: replaces any existing value for the name. -/
def setHeader (k v : String) (hs : List (String × String)) : List (String × String) :=
  hs.filter (fun p => p.1 != k) ++ [(k, v)]

/-- K8Client::finish_request: install the Authorization bearer header when the
client holds a token. -/
def finishRequest {ρ : Type} (token : Option String) (req : K8Request ρ) : K8Request ρ :=
  match token with
  | some t => { req with headers := setHeader "authorization" ("Bearer " ++ t) req.headers }
  | none => req

/-- Error values produced by the dispatcher (the anyhow error chain):
a MetaStatus envelope, a serde_json decode failure, or a plain message. -/
inductive K8ClientError where
  | apiResponse (status : MetaStatus)
  | jsonError
  | anyhowMsg (msg : String)
deriving DecidableEq

/-- Embedding of K8Client::handle_request: one request; 2xx decodes the body
as the expected type, anything else decodes the body as MetaStatus and fails
with it. No retry of any kind. -/
def handle_request {ρ T : Type} (token : Option String) (decodeT : List Nat → Option T)
    (decodeStatus : List Nat → Option MetaStatus) (responses : Nat → HttpResponse)
    (req : K8Request ρ) : Except K8ClientError T × List (K8Request ρ) :=
  let req1 := finishRequest token req
  let resp := responses 0
  if isSuccessStatus resp.status then
    (match decodeT resp.body with
     | some v => Except.ok v
     | none => Except.error K8ClientError.jsonError, [req1])
  else
    (match decodeStatus resp.body with
     | some s => Except.error (K8ClientError.apiResponse s)
     | none => Except.error K8ClientError.jsonError, [req1])

/-- Embedding of K8Client::handle_request_bytes: like handle_request, but on a
401 first response, when the service-account token file is readable
(tokenFile some), the original request is rebuilt, its Authorization header
replaced with the freshly read trimmed bearer, and reissued exactly once. -/
def handle_request_bytes {ρ T : Type} (token : Option String) (tokenFile : Option String)
    (decodeT : List Nat → Option T) (decodeStatus : List Nat → Option MetaStatus)
    (responses : Nat → HttpResponse) (req : K8Request ρ) :
    Except K8ClientError T × List (K8Request ρ) :=
  let req1 := finishRequest token req
  let resp1 := responses 0
  if isSuccessStatus resp1.status then
    (match decodeT resp1.body with
     | some v => Except.ok v
     | none => Except.error K8ClientError.jsonError, [req1])
  else if resp1.status = 401 then
    match tokenFile with
    | some content =>
      let req2 : K8Request ρ :=
        { req with headers := setHeader "authorization" ("Bearer " ++ content.trim) req.headers }
      let resp2 := responses 1
      if isSuccessStatus resp2.status then
        (match decodeT resp2.body with
         | some v => Except.ok v
         | none => Except.error K8ClientError.jsonError, [req1, req2])
      else
        (match decodeStatus resp2.body with
         | some s => Except.error (K8ClientError.apiResponse s)
         | none => Except.error K8ClientError.jsonError, [req1, req2])
    | none =>
      (match decodeStatus resp1.body with
       | some s => Except.error (K8ClientError.apiResponse s)
       | none => Except.error K8ClientError.jsonError, [req1])
  else
    (match decodeStatus resp1.body with
     | some s => Except.error (K8ClientError.apiResponse s)
     | none => Except.error K8ClientError.jsonError, [req1])

/-- Embedding of K8Client::retrieve_item: dispatch through handle_request; an
error that downcasts to a MetaStatus with code 404 becomes Ok(None); every
other outcome is passed through. -/
def retrieve_item {ρ Obj : Type} (token : Option String) (decodeObj : List Nat → Option Obj)
    (decodeStatus : List Nat → Option MetaStatus) (responses : Nat → HttpResponse)
    (req : K8Request ρ) : Except K8ClientError (Option Obj) × List (K8Request ρ) :=
  let r := handle_request token decodeObj decodeStatus responses req
  (match r.1 with
   | Except.ok item => Except.ok (some item)
   | Except.error e =>
     match e with
     | K8ClientError.apiResponse s =>
       match s.code with
       | some code => if code = 404 then Except.ok none else Except.error e
       | none => Except.error e
     | _ => Except.error e
  , r.2)

/-- Delete result (DeleteStatus in k8-types/src/metadata.rs, with the variant
payloads as used by client_impl.rs). -/
inductive DeleteStatus (O : Type) where
  | deleted (status : MetaStatus)
  | foregroundDelete (obj : O)

/-- Embedding of K8Client::delete_item_with_option, response handling part:
the body is decoded as a generic JSON map; when its kind field equals
"Status" the map is deserialized as a MetaStatus and wrapped as Deleted,
otherwise as the typed object and wrapped as ForegroundDelete; a body with no
kind field is an error. -/
def delete_item_with_option {ρ Obj : Type} (token : Option String)
    (decodeMap : List Nat → Option (List (String × Json)))
    (decodeStatusJson : Json → Option MetaStatus) (decodeObjJson : Json → Option Obj)
    (decodeStatus : List Nat → Option MetaStatus) (responses : Nat → HttpResponse)
    (req : K8Request ρ) : Except K8ClientError (DeleteStatus Obj) × List (K8Request ρ) :=
  let r := handle_request token decodeMap decodeStatus responses req
  (match r.1 with
   | Except.error e => Except.error e
   | Except.ok values =>
     match jsonLookup values "kind" with
     | some kindVal =>
       if jsonIsStr kindVal "Status" then
         match decodeStatusJson (Json.obj values) with
         | some st => Except.ok (DeleteStatus.deleted st)
         | none => Except.error K8ClientError.jsonError
       else
         match decodeObjJson (Json.obj values) with
         | some o => Except.ok (DeleteStatus.foregroundDelete o)
         | none => Except.error K8ClientError.jsonError
     | none => Except.error (K8ClientError.anyhowMsg "missing kind")
  , r.2)

/-- Counterexample to claim C1: operations dispatch through handle_request,
which never reissues a request. A get whose first response is 401 issues
exactly one request, not the two the claim demands, regardless of the
service-account token file (handle_request never reads it; the retrying
handle_request_bytes has no caller). -/
theorem claim_C1_counterexample :
    (retrieve_item (some "stale") (fun _ => (none : Option Nat))
      (fun _ => some { code := some 401 })
      (fun _ => { status := 401, body := [] })
      { rest := (), headers := [] }).2.length = 1
    ∧ (retrieve_item (some "stale") (fun _ => (none : Option Nat))
      (fun _ => some { code := some 401 })
      (fun _ => { status := 401, body := [] })
      { rest := (), headers := [] }).2.length ≠ 2 := by
  constructor
  · rfl
  · intro h
    simp [retrieve_item, handle_request, (by decide : isSuccessStatus 401 = false)] at h

/-- Claim C1 as amended: the 401-retry behavior lives in
handle_request_bytes, which no operation currently calls. There, a 401 first
response with a readable token file leads to exactly one reissue of the same
request with the Authorization header replaced by the fresh trimmed bearer;
at most two requests are ever issued; a non-401 first response or an
unreadable token file is never retried. The operations' dispatcher
handle_request always issues exactly one request. -/
theorem claim_C1_amended_retry_behavior {ρ T : Type} (token : Option String)
    (tokenFile : Option String) (decodeT : List Nat → Option T)
    (decodeStatus : List Nat → Option MetaStatus) (responses : Nat → HttpResponse)
    (req : K8Request ρ) :
    ((responses 0).status = 401 → ∀ content, tokenFile = some content →
      (handle_request_bytes token tokenFile decodeT decodeStatus responses req).2
        = [finishRequest token req,
           { req with
             headers := setHeader "authorization" ("Bearer " ++ content.trim) req.headers }])
    ∧ (handle_request_bytes token tokenFile decodeT decodeStatus responses req).2.length ≤ 2
    ∧ ((responses 0).status ≠ 401 →
      (handle_request_bytes token tokenFile decodeT decodeStatus responses req).2
        = [finishRequest token req])
    ∧ (tokenFile = none →
      (handle_request_bytes token tokenFile decodeT decodeStatus responses req).2
        = [finishRequest token req])
    ∧ (handle_request token decodeT decodeStatus responses req).2
        = [finishRequest token req] := by
  have hns : isSuccessStatus 401 = false := by decide
  refine ⟨?_, ?_, ?_, ?_, ?_⟩
  · intro h401 content hfile
    cases hs2 : isSuccessStatus (responses 1).status <;>
      simp [handle_request_bytes, hfile, h401, hns, hs2]
  · by_cases h1 : isSuccessStatus (responses 0).status
    · simp [handle_request_bytes, h1]
    · by_cases h2 : (responses 0).status = 401
      · cases tokenFile with
        | none => simp [handle_request_bytes, h1, h2, hns]
        | some c =>
          by_cases h3 : isSuccessStatus (responses 1).status <;>
            simp [handle_request_bytes, h1, h2, h3, hns]
      · simp [handle_request_bytes, h1, h2]
  · intro hne
    by_cases h1 : isSuccessStatus (responses 0).status <;>
      simp [handle_request_bytes, h1, hne]
  · intro hfile
    by_cases h1 : isSuccessStatus (responses 0).status <;>
      by_cases h2 : (responses 0).status = 401 <;>
      simp [handle_request_bytes, hfile, h1, h2, hns]
  · by_cases h1 : isSuccessStatus (responses 0).status <;> simp [handle_request, h1]

/-- Transport of the C1 witness: a 401 first response followed by a 200. -/
def c1Responses : Nat → HttpResponse :=
  fun i => if i = 0 then { status := 401, body := [] } else { status := 200, body := [] }

/-- Witness for the amended claim C1: on a 401 with a readable token file the
bytes path issues exactly the original request and one retry whose
Authorization header carries the trimmed fresh token. -/
theorem claim_C1_witness :
    (handle_request_bytes (some "old") (some " fresh\n") (fun _ => some (0 : Nat))
        (fun _ => some {}) c1Responses { rest := (), headers := [] }).2
      = [finishRequest (some "old") { rest := (), headers := [] },
         { rest := (),
           headers := setHeader "authorization" ("Bearer " ++ (" fresh\n").trim) [] }] :=
  (claim_C1_amended_retry_behavior (some "old") (some " fresh\n") (fun _ => some (0 : Nat))
    (fun _ => some {}) c1Responses { rest := (), headers := [] }).1 rfl " fresh\n" rfl

/-- Claim C5: a get whose request fails with a ServerStatus error carrying
code 404 returns absence (Ok none); a success returns the object; every other
failure is passed through as an error. -/
theorem claim_C5_get_maps_404_to_absence {ρ Obj : Type} (token : Option String)
    (decodeObj : List Nat → Option Obj) (decodeStatus : List Nat → Option MetaStatus)
    (responses : Nat → HttpResponse) (req : K8Request ρ) :
    (∀ s, (handle_request token decodeObj decodeStatus responses req).1
        = Except.error (K8ClientError.apiResponse s) → s.code = some 404 →
      retrieve_item token decodeObj decodeStatus responses req
        = (Except.ok none, (handle_request token decodeObj decodeStatus responses req).2))
    ∧ (∀ v, (handle_request token decodeObj decodeStatus responses req).1 = Except.ok v →
      retrieve_item token decodeObj decodeStatus responses req
        = (Except.ok (some v), (handle_request token decodeObj decodeStatus responses req).2))
    ∧ (∀ e, (handle_request token decodeObj decodeStatus responses req).1 = Except.error e →
      (∀ s, e = K8ClientError.apiResponse s → s.code ≠ some 404) →
      retrieve_item token decodeObj decodeStatus responses req
        = (Except.error e, (handle_request token decodeObj decodeStatus responses req).2)) := by
  refine ⟨?_, ?_, ?_⟩
  · intro s hs hc
    simp [retrieve_item, hs, hc]
  · intro v hv
    simp [retrieve_item, hv]
  · intro e he hne
    simp only [retrieve_item, he]
    cases e with
    | apiResponse s =>
      cases hc : s.code with
      | none => simp [hc]
      | some code =>
        have hcn : code ≠ 404 := by
          intro h
          exact hne s rfl (by rw [hc, h])
        simp [hc, hcn]
    | jsonError => simp
    | anyhowMsg m => simp

/-- Witness for claim C5: a 404 response with a code-404 status envelope makes
the get return Ok none. -/
theorem claim_C5_witness :
    retrieve_item (some "t") (fun _ => (none : Option Nat))
        (fun _ => some { code := some 404 }) (fun _ => { status := 404, body := [] })
        { rest := (), headers := [] }
      = (Except.ok none,
         (handle_request (some "t") (fun _ => (none : Option Nat))
            (fun _ => some { code := some 404 }) (fun _ => { status := 404, body := [] })
            { rest := (), headers := [] }).2) :=
  (claim_C5_get_maps_404_to_absence (some "t") (fun _ => (none : Option Nat))
    (fun _ => some { code := some 404 }) (fun _ => { status := 404, body := [] })
    { rest := (), headers := [] }).1 { code := some 404 } rfl rfl

/-- Claim C6: the delete response body is parsed as a generic JSON object;
when its kind field equals "Status" it is deserialized as the status envelope
and returned as Deleted; when the kind field holds any other value the body
deserializes as the typed object and is returned as ForegroundDelete; a body
without a kind field is an error. -/
theorem claim_C6_delete_response_dispatch {ρ Obj : Type} (token : Option String)
    (decodeMap : List Nat → Option (List (String × Json)))
    (decodeStatusJson : Json → Option MetaStatus) (decodeObjJson : Json → Option Obj)
    (decodeStatus : List Nat → Option MetaStatus) (responses : Nat → HttpResponse)
    (req : K8Request ρ) :
    (∀ values st,
      (handle_request token decodeMap decodeStatus responses req).1 = Except.ok values →
      jsonLookup values "kind" = some (Json.str "Status") →
      decodeStatusJson (Json.obj values) = some st →
      delete_item_with_option token decodeMap decodeStatusJson decodeObjJson decodeStatus
          responses req
        = (Except.ok (DeleteStatus.deleted st),
           (handle_request token decodeMap decodeStatus responses req).2))
    ∧ (∀ values kv o,
      (handle_request token decodeMap decodeStatus responses req).1 = Except.ok values →
      jsonLookup values "kind" = some kv → jsonIsStr kv "Status" = false →
      decodeObjJson (Json.obj values) = some o →
      delete_item_with_option token decodeMap decodeStatusJson decodeObjJson decodeStatus
          responses req
        = (Except.ok (DeleteStatus.foregroundDelete o),
           (handle_request token decodeMap decodeStatus responses req).2))
    ∧ (∀ values,
      (handle_request token decodeMap decodeStatus responses req).1 = Except.ok values →
      jsonLookup values "kind" = none →
      delete_item_with_option token decodeMap decodeStatusJson decodeObjJson decodeStatus
          responses req
        = (Except.error (K8ClientError.anyhowMsg "missing kind"),
           (handle_request token decodeMap decodeStatus responses req).2)) := by
  refine ⟨?_, ?_, ?_⟩
  · intro values st hv hk hst
    simp [delete_item_with_option, hv, hk, jsonIsStr, hst]
  · intro values kv o hv hk hkv ho
    simp [delete_item_with_option, hv, hk, hkv, ho]
  · intro values hv hk
    simp [delete_item_with_option, hv, hk]

/-- Witness for claim C6: a body whose kind field is "Status" comes back as
Deleted with the decoded envelope. -/
theorem claim_C6_witness :
    delete_item_with_option (some "t")
        (fun _ => some [("kind", Json.str "Status")])
        (fun _ => some { code := some 200 }) (fun _ => (none : Option Nat))
        (fun _ => none) (fun _ => { status := 200, body := [] })
        { rest := (), headers := [] }
      = (Except.ok (DeleteStatus.deleted { code := some 200 }),
         (handle_request (some "t") (fun _ => some [("kind", Json.str "Status")])
            (fun _ => none) (fun _ => { status := 200, body := [] })
            { rest := (), headers := [] }).2) :=
  (claim_C6_delete_response_dispatch (some "t") (fun _ => some [("kind", Json.str "Status")])
    (fun _ => some { code := some 200 }) (fun _ => (none : Option Nat)) (fun _ => none)
    (fun _ => { status := 200, body := [] }) { rest := (), headers := [] }).1
    [("kind", Json.str "Status")] { code := some 200 } rfl rfl rfl

/-! ## Apply engine (src/k8-metadata-client/src/client.rs, MetadataClient::apply),
the object metadata records (src/k8-types/src/metadata.rs) and the Service
normalization (src/k8-types/src/core/service.rs). -/

/-- The metadata/spec/header triple of a Kubernetes object as the apply
engine consumes it (K8Obj for the retrieved old side, InputK8Obj for the
caller's new side; the status field plays no role in apply). -/
structure K8ObjRec (M S H : Type) where
  metadata : M
  spec : S
  header : H

/-- Result of apply (ApplyResult in k8-metadata-client/src/diff.rs):
None, Created or Patched. -/
inductive ApplyResult (Obj : Type) where
  | noChange
  | created (obj : Obj)
  | patched (obj : Obj)

/-- The network operations apply performs, in order. -/
inductive ApplyAction where
  | retrieveReq
  | createReq
  | patchReq (diff : Json)

def jsonOptStr : Option String → Json
  | some s => Json.str s
  | none => Json.null

def jsonOptNum : Option Nat → Json
  | some n => Json.num n
  | none => Json.null

def jsonOptInt : Option Int → Json
  | some n => Json.num n
  | none => Json.null

def jsonOptBool : Option Bool → Json
  | some b => Json.bool b
  | none => Json.null

/-- Serde serialization of a string map (HashMap<String, String>; modelled as
an association list in insertion order). -/
def strMapJson (kvs : List (String × String)) : Json :=
  Json.obj (kvs.map (fun p => (p.1, Json.str p.2)))

/-- Target port (TargetPort in service.rs). -/
inductive TargetPort where
  | number (n : Nat)
  | name (s : String)
deriving DecidableEq

/-- Service port (ServicePort in service.rs). -/
structure ServicePort where
  name : Option String := none
  node_port : Option Nat := none
  port : Nat
  target_port : Option TargetPort := none
deriving DecidableEq

inductive LoadBalancerType where
  | externalName
  | clusterIP
  | nodePort
  | loadBalancer
deriving DecidableEq

inductive ExternalTrafficPolicy where
  | local
  | cluster
deriving DecidableEq

/-- Service spec (ServiceSpec in src/k8-types/src/core/service.rs); the
selector map is modelled as an association list. -/
structure ServiceSpec where
  cluster_ip : String := ""
  external_ips : List String := []
  load_balancer_ip : Option String := none
  type : Option LoadBalancerType := none
  external_name : Option String := none
  external_traffic_policy : Option ExternalTrafficPolicy := none
  ports : List ServicePort := []
  selector : Option (List (String × String)) := none
deriving DecidableEq

/-- Embedding of ServiceSpec::make_same: when the other (input) side has an
empty clusterIP, erase the server-allocated clusterIP on this side. -/
def ServiceSpec.make_same (self other : ServiceSpec) : ServiceSpec :=
  if other.cluster_ip = "" then { self with cluster_ip := "" } else self

def targetPortJson : TargetPort → Json
  | TargetPort.number n => Json.num n
  | TargetPort.name s => Json.str s

def servicePortJson (p : ServicePort) : Json :=
  Json.obj [("name", jsonOptStr p.name), ("nodePort", jsonOptNum p.node_port),
    ("port", Json.num p.port),
    ("targetPort", match p.target_port with
      | some t => targetPortJson t
      | none => Json.null)]

def lbTypeJson : LoadBalancerType → Json
  | LoadBalancerType.externalName => Json.str "ExternalName"
  | LoadBalancerType.clusterIP => Json.str "ClusterIP"
  | LoadBalancerType.nodePort => Json.str "NodePort"
  | LoadBalancerType.loadBalancer => Json.str "LoadBalancer"

def trafficPolicyJson : ExternalTrafficPolicy → Json
  | ExternalTrafficPolicy.local => Json.str "Local"
  | ExternalTrafficPolicy.cluster => Json.str "Cluster"

/-- Serde serialization of a ServiceSpec (camelCase, with the explicit
clusterIP, externalIPs and loadBalancerIP renames of service.rs). -/
def serviceSpecJson (s : ServiceSpec) : Json :=
  Json.obj [("clusterIP", Json.str s.cluster_ip),
    ("externalIPs", Json.arr (s.external_ips.map Json.str)),
    ("loadBalancerIP", jsonOptStr s.load_balancer_ip),
    ("type", match s.type with
      | some t => lbTypeJson t
      | none => Json.null),
    ("externalName", jsonOptStr s.external_name),
    ("externalTrafficPolicy", match s.external_traffic_policy with
      | some t => trafficPolicyJson t
      | none => Json.null),
    ("ports", Json.arr (s.ports.map servicePortJson)),
    ("selector", match s.selector with
      | some kvs => strMapJson kvs
      | none => Json.null)]

/-- Owner reference record (OwnerReferences in k8-types/src/metadata.rs). -/
structure OwnerReferences where
  api_version : String := "v1"
  block_owner_deletion : Bool := false
  controller : Option Bool := none
  kind : String := ""
  name : String := ""
  uid : String := ""

/-- Metadata of an object returned by the server (ObjectMeta in
k8-types/src/metadata.rs): thirteen fields, all serialized (the record
carries no skip attribute), camelCase; the namespace field is renamed
nspace (Lean keyword) but still serializes under the namespace key. -/
structure ObjectMeta where
  name : String := ""
  nspace : String := ""
  uid : String := ""
  creation_timestamp : String := ""
  generation : Option Int := none
  resource_version : String := ""
  cluster_name : Option String := none
  deletion_timestamp : Option String := none
  deletion_grace_period_seconds : Option Nat := none
  labels : List (String × String) := []
  owner_references : List OwnerReferences := []
  annotations : List (String × String) := []
  finalizers : List String := []

/-- Metadata supplied by the caller for creation (InputObjectMeta in
k8-types/src/metadata.rs): six fields, all serialized, camelCase. -/
structure InputObjectMeta where
  name : String := ""
  labels : List (String × String) := []
  nspace : String := ""
  owner_references : List OwnerReferences := []
  finalizers : List String := []
  annotations : List (String × String) := []

def ownerReferencesJson (o : OwnerReferences) : Json :=
  Json.obj [("apiVersion", Json.str o.api_version),
    ("blockOwnerDeletion", Json.bool o.block_owner_deletion),
    ("controller", jsonOptBool o.controller),
    ("kind", Json.str o.kind), ("name", Json.str o.name), ("uid", Json.str o.uid)]

/-- Serde serialization of ObjectMeta: every one of its thirteen fields is
emitted. -/
def objectMetaJson (m : ObjectMeta) : Json :=
  Json.obj [("name", Json.str m.name),
    ("namespace", Json.str m.nspace),
    ("uid", Json.str m.uid),
    ("creationTimestamp", Json.str m.creation_timestamp),
    ("generation", jsonOptInt m.generation),
    ("resourceVersion", Json.str m.resource_version),
    ("clusterName", jsonOptStr m.cluster_name),
    ("deletionTimestamp", jsonOptStr m.deletion_timestamp),
    ("deletionGracePeriodSeconds", jsonOptNum m.deletion_grace_period_seconds),
    ("labels", strMapJson m.labels),
    ("ownerReferences", Json.arr (m.owner_references.map ownerReferencesJson)),
    ("annotations", strMapJson m.annotations),
    ("finalizers", Json.arr (m.finalizers.map Json.str))]

/-- Serde serialization of InputObjectMeta: every one of its six fields is
emitted. -/
def inputObjectMetaJson (m : InputObjectMeta) : Json :=
  Json.obj [("name", Json.str m.name),
    ("labels", strMapJson m.labels),
    ("namespace", Json.str m.nspace),
    ("ownerReferences", Json.arr (m.owner_references.map ownerReferencesJson)),
    ("finalizers", Json.arr (m.finalizers.map Json.str)),
    ("annotations", strMapJson m.annotations)]

/-- Serde serialization of DiffableK8Obj (k8-metadata-client/src/diff.rs):
a metadata field, a spec field, and the flattened header fields. -/
def diffableJson (metaJson specJson : Json) (headerFields : List (String × Json)) : Json :=
  Json.obj (("metadata", metaJson) :: ("spec", specJson) :: headerFields)

/-- Environment of one apply call: the outcomes of the client primitives it
may invoke, the error interface (MetadataClientError), the kind's
normalization (Spec::make_same) and the serde serializations of the generic
spec and header; the metadata serializations are fixed by the source, which
always compares ObjectMeta on the old side against InputObjectMeta on the
new side. -/
structure ApplyCtx (E S H Obj : Type) where
  retrieve : Except E (K8ObjRec ObjectMeta S H)
  create : Except E Obj
  patchResult : Json → Except E Obj
  not_found : E → Bool
  patchError : E
  fromDiffError : DiffError → E
  makeSame : S → S → S
  specJson : S → Json
  headerFields : H → List (String × Json)

/-- Serialization of the patch object (serde_json::to_value on PatchObject;
modelled from the spec: the patch object renders as its JSON map). -/
def patchToJson (p : List (String × Json)) : Json := Json.obj p

/-- Embedding of MetadataClient::apply: retrieve; when absent, create and
return Created; otherwise normalize the old spec with make_same, serialize
both DiffableK8Obj comparison values (ObjectMeta versus InputObjectMeta
metadata), diff them; None means no change, Patch is sent as a patch
request, and any other diff shape is the patch error. -/
def apply {E S H Obj : Type} (ctx : ApplyCtx E S H Obj)
    (value : K8ObjRec InputObjectMeta S H) : Except E (ApplyResult Obj) × List ApplyAction :=
  match ctx.retrieve with
  | Except.ok old_item =>
    let old_spec := ctx.makeSame old_item.spec value.spec
    let new_obj := diffableJson (inputObjectMetaJson value.metadata)
      (ctx.specJson value.spec) (ctx.headerFields value.header)
    let old_obj := diffableJson (objectMetaJson old_item.metadata)
      (ctx.specJson old_spec) (ctx.headerFields old_item.header)
    match jdiff old_obj new_obj with
    | Except.ok JDiff.none => (Except.ok ApplyResult.noChange, [ApplyAction.retrieveReq])
    | Except.ok (JDiff.patch p) =>
      let json_diff := patchToJson p
      (match ctx.patchResult json_diff with
       | Except.ok obj => Except.ok (ApplyResult.patched obj)
       | Except.error e => Except.error e,
       [ApplyAction.retrieveReq, ApplyAction.patchReq json_diff])
    | Except.ok _ => (Except.error ctx.patchError, [ApplyAction.retrieveReq])
    | Except.error de => (Except.error (ctx.fromDiffError de), [ApplyAction.retrieveReq])
  | Except.error err =>
    if ctx.not_found err then
      (match ctx.create with
       | Except.ok obj => Except.ok (ApplyResult.created obj)
       | Except.error e => Except.error e,
       [ApplyAction.retrieveReq, ApplyAction.createReq])
    else (Except.error err, [ApplyAction.retrieveReq])

theorem jdiff_self (v : Json) : jdiff v v = Except.ok JDiff.none := by
  simp [jdiff, Json.beq_refl]

theorem Json.beqFields_length : ∀ (l1 l2 : List (String × Json)),
    Json.beqFields l1 l2 = true → l1.length = l2.length := by
  intro l1
  induction l1 with
  | nil =>
    intro l2 h
    cases l2 with
    | nil => rfl
    | cons b bs => simp [Json.beqFields] at h
  | cons a as ih =>
    intro l2 h
    cases l2 with
    | nil =>
      obtain ⟨k1, v1⟩ := a
      simp [Json.beqFields] at h
    | cons b bs =>
      obtain ⟨k1, v1⟩ := a
      obtain ⟨k2, v2⟩ := b
      simp [Json.beqFields] at h
      simp [ih bs h.2]

theorem beqFields_false_of_length (l1 l2 : List (String × Json))
    (h : l1.length ≠ l2.length) : Json.beqFields l1 l2 = false := by
  cases hb : Json.beqFields l1 l2 with
  | false => rfl
  | true => exact absurd (Json.beqFields_length l1 l2 hb) h

/-- The serializations of ObjectMeta (13 fields) and InputObjectMeta
(6 fields) always differ, whatever the field values. -/
theorem metaJson_beq_false (m : ObjectMeta) (mi : InputObjectMeta) :
    Json.beq (objectMetaJson m) (inputObjectMetaJson mi) = false := by
  simp only [objectMetaJson, inputObjectMetaJson, Json.beq]
  apply beqFields_false_of_length
  simp

theorem beqFields_cons_false {k1 k2 : String} {v1 v2 : Json}
    (xs ys : List (String × Json)) (h : Json.beq v1 v2 = false) :
    Json.beqFields ((k1, v1) :: xs) ((k2, v2) :: ys) = false := by
  simp [Json.beqFields, h]

/-- Hence the two DiffableK8Obj comparison values always differ. -/
theorem diffable_beq_false (mo : ObjectMeta) (mi : InputObjectMeta) (s1 s2 : Json)
    (h1 h2 : List (String × Json)) :
    Json.beq (Json.obj (("metadata", objectMetaJson mo) :: ("spec", s1) :: h1))
      (Json.obj (("metadata", inputObjectMetaJson mi) :: ("spec", s2) :: h2)) = false :=
  beqFields_cons_false _ _ (metaJson_beq_false mo mi)

/-- The diff of the two comparison values is therefore always a Patch. -/
theorem jdiff_meta_mismatch (mo : ObjectMeta) (mi : InputObjectMeta) (s1 s2 : Json)
    (h1 h2 : List (String × Json)) :
    ∃ p, patchObjectDiff (("metadata", objectMetaJson mo) :: ("spec", s1) :: h1)
        (("metadata", inputObjectMetaJson mi) :: ("spec", s2) :: h2) = Except.ok p
      ∧ jdiff (Json.obj (("metadata", objectMetaJson mo) :: ("spec", s1) :: h1))
          (Json.obj (("metadata", inputObjectMetaJson mi) :: ("spec", s2) :: h2))
        = Except.ok (JDiff.patch p) := by
  refine ⟨_, rfl, ?_⟩
  simp [jdiff, diffable_beq_false mo mi s1 s2 h1 h2, patchObjectDiff]

/-- Server-populated metadata of the retrieved Service of the C4 concrete
run. -/
def c4OldMeta : ObjectMeta :=
  { name := "svc", nspace := "default", uid := "u-1",
    creation_timestamp := "2020-01-01T00:00:00Z", resource_version := "42" }

/-- The retrieved Service of the C4 concrete run: the input created earlier,
now carrying server-populated metadata and a server-allocated clusterIP. -/
def c4OldObj : K8ObjRec ObjectMeta ServiceSpec Unit :=
  { metadata := c4OldMeta
    spec := { cluster_ip := "10.96.0.1", ports := [{ port := 9092 }],
              selector := some [("app", "x")] }
    header := () }

/-- The applied input of the C4 concrete run: the identical Service input. -/
def c4Value : K8ObjRec InputObjectMeta ServiceSpec Unit :=
  { metadata := { name := "svc", nspace := "default" }
    spec := { cluster_ip := "", ports := [{ port := 9092 }], selector := some [("app", "x")] }
    header := () }

/-- The apply environment of the C4 concrete run, built over the Service
kind with all requests succeeding. -/
def c4Ctx : ApplyCtx String ServiceSpec Unit Nat :=
  { retrieve := Except.ok c4OldObj
    create := Except.ok 0
    patchResult := fun _ => Except.ok 0
    not_found := fun e => e == "not found"
    patchError := "patch error"
    fromDiffError := fun _ => "diff error"
    makeSame := ServiceSpec.make_same
    specJson := serviceSpecJson
    headerFields := fun _ => [] }

/-- Counterexample to claim C4: a second apply of the identical Service
input against the object it created returns Patched with a patch request
issued, not the Unchanged/None result without a patch: the old comparison
value serializes the retrieved ObjectMeta while the new serializes the
input's InputObjectMeta, so even after make_same erases the server-allocated
clusterIP the comparison values differ and the diff is never empty. -/
theorem claim_C4_counterexample :
    (apply c4Ctx c4Value).1 = Except.ok (ApplyResult.patched 0)
    ∧ (apply c4Ctx c4Value).1 ≠ Except.ok ApplyResult.noChange
    ∧ (apply c4Ctx c4Value).2.length = 2 := by
  have h : (apply c4Ctx c4Value).1 = Except.ok (ApplyResult.patched 0) := rfl
  refine ⟨h, ?_, rfl⟩
  rw [h]
  intro hc
  simp at hc

/-- Claim C4 as amended: apply(x) when the object does not exist returns
Created; but a second apply(x) with identical input never computes an empty
diff and never returns the Unchanged/None result: the old comparison value
serializes the retrieved ObjectMeta (thirteen fields) while the new one
serializes the input's InputObjectMeta (six fields), so the two values
always differ - even after the kind's make_same normalization - the diff
engine returns a Patch, and apply issues that patch and returns Patched
(when the patch request succeeds). The other-shape patch error arm of the
source is unreachable on these always-object comparison values. -/
theorem claim_C4_amended_second_apply_patches {E S H Obj : Type}
    (ctx : ApplyCtx E S H Obj) (value : K8ObjRec InputObjectMeta S H) :
    (∀ err obj, ctx.retrieve = Except.error err → ctx.not_found err = true →
      ctx.create = Except.ok obj →
      apply ctx value = (Except.ok (ApplyResult.created obj),
        [ApplyAction.retrieveReq, ApplyAction.createReq]))
    ∧ (∀ old, ctx.retrieve = Except.ok old → ∃ p,
      jdiff (diffableJson (objectMetaJson old.metadata)
              (ctx.specJson (ctx.makeSame old.spec value.spec)) (ctx.headerFields old.header))
            (diffableJson (inputObjectMetaJson value.metadata)
              (ctx.specJson value.spec) (ctx.headerFields value.header))
          = Except.ok (JDiff.patch p)
        ∧ (∀ obj, ctx.patchResult (patchToJson p) = Except.ok obj →
            apply ctx value = (Except.ok (ApplyResult.patched obj),
              [ApplyAction.retrieveReq, ApplyAction.patchReq (patchToJson p)]))
        ∧ (apply ctx value).1 ≠ Except.ok ApplyResult.noChange) := by
  constructor
  · intro err obj hr hnf hc
    simp [apply, hr, hnf, hc]
  · intro old hr
    obtain ⟨p, hpo, hp⟩ := jdiff_meta_mismatch old.metadata value.metadata
      (ctx.specJson (ctx.makeSame old.spec value.spec)) (ctx.specJson value.spec)
      (ctx.headerFields old.header) (ctx.headerFields value.header)
    refine ⟨p, ?_, ?_, ?_⟩
    · simpa [diffableJson] using hp
    · intro obj hobj
      simp only [apply, hr, diffableJson]
      rw [hp]
      simp [hobj]
    · simp only [apply, hr, diffableJson]
      rw [hp]
      cases hpr : ctx.patchResult (patchToJson p) <;> simp [hpr]

/-- Witness for the amended claim C4 at the concrete Service run: the second
apply returns Patched, never the None result. -/
theorem claim_C4_witness :
    (apply c4Ctx c4Value).1 = Except.ok (ApplyResult.patched 0)
    ∧ (apply c4Ctx c4Value).1 ≠ Except.ok ApplyResult.noChange := by
  obtain ⟨p, hdiff, hpatch, hnone⟩ :=
    (claim_C4_amended_second_apply_patches c4Ctx c4Value).2 c4OldObj rfl
  have h := hpatch 0 rfl
  exact ⟨by rw [h], hnone⟩

/-! ## Kubeconfig model and out-of-cluster credential resolution
(src/k8-config/src/config.rs, src/k8-client/src/cert.rs). -/

structure ClusterDetail where
  insecure_skip_tls_verify : Option Bool := none
  certificate_authority : Option String := none
  certificate_authority_data : Option String := none
  server : String := ""

structure Cluster where
  name : String
  cluster : ClusterDetail

/-- Context detail; the namespace field is renamed nspace (Lean keyword). -/
structure ContextDetail where
  cluster : String
  user : String
  nspace : Option String := none

structure Context where
  name : String
  context : ContextDetail

/-- Exec plugin configuration (Exec in config.rs). -/
structure ExecConfig where
  api_version : String := ""
  args : List String := []
  command : String := ""

structure GcpAuthProviderConfig where
  access_token : Option String := none
  cmd_args : String := ""
  cmd_path : String := ""
  expiry : Option String := none
  expiry_key : String := ""
  token_key : String := ""

inductive AuthProviderDetail where
  | gcp (config : GcpAuthProviderConfig)
  | other

structure UserDetail where
  auth_provider : Option AuthProviderDetail := none
  client_certificate : Option String := none
  client_key : Option String := none
  client_certificate_data : Option String := none
  client_key_data : Option String := none
  exec : Option ExecConfig := none
  token : Option String := none
  username : Option String := none
  password : Option String := none

structure User where
  name : String
  user : UserDetail

structure KubeConfig where
  api_version : String := ""
  clusters : List Cluster := []
  contexts : List Context := []
  current_context : String := ""
  kind : String := ""
  users : List User := []

/-- KubeConfig::current_context() (renamed: the field keeps the source name). -/
def KubeConfig.currentContext (c : KubeConfig) : Option Context :=
  c.contexts.find? (fun x => x.name == c.current_context)

/-- KubeConfig::current_cluster(). -/
def KubeConfig.currentCluster (c : KubeConfig) : Option Cluster :=
  match c.currentContext with
  | some ctx => c.clusters.find? (fun x => x.name == ctx.context.cluster)
  | none => none

/-- KubeConfig::current_user(). -/
def KubeConfig.currentUser (c : KubeConfig) : Option User :=
  match c.currentContext with
  | some ctx => c.users.find? (fun x => x.name == ctx.context.user)
  | none => none

/-- Calls made against the TLS ConfigBuilder, in order (the builder contract
of cert.rs; the per-backend implementations are external). -/
inductive BuilderAction where
  | loadCA (path : String)
  | loadCAData (data : List Nat)
  | loadClientCert (certPath keyPath : String)
  | loadClientCertData (cert key : List Nat)
deriving DecidableEq

/-- Failure modes of the resolution: an InvalidInput IoError with its message,
or the panic of the unwrap on the cluster CA base64 decode. -/
inductive CfgError where
  | ioInvalidInput (msg : String)
  | panicked
deriving DecidableEq

/-- Embedding of ClientConfigBuilder::configure_out_of_cluster (cert.rs).
The base64 decoder and the exec-plugin token acquisition (subprocess plus
ExecCredential parse) are abstract parameters. Identity resolution order:
exec plugin, inline client cert data (requiring inline key data), client cert
path (requiring key path), bearer token; with none of these the builder is
returned with no token - the error branch in the source is commented out
pending the alternate auth provider flow. -/
def configure_out_of_cluster (decode : String → Option (List Nat))
    (execToken : ExecConfig → Except CfgError String) (kube_config : KubeConfig) :
    Except CfgError (List BuilderAction × Option String) :=
  match kube_config.currentUser with
  | none => Except.error (CfgError.ioInvalidInput "config must have current user")
  | some current_user =>
    match kube_config.currentCluster with
    | none => Except.error (CfgError.ioInvalidInput "config must have current cluster")
    | some current_cluster =>
      let caResult : Except CfgError (List BuilderAction) :=
        match current_cluster.cluster.certificate_authority_data with
        | some ca_data =>
          match decode ca_data with
          | some pem => Except.ok [BuilderAction.loadCAData pem]
          | none => Except.error CfgError.panicked
        | none =>
          match current_cluster.cluster.certificate_authority with
          | some path => Except.ok [BuilderAction.loadCA path]
          | none =>
            Except.error (CfgError.ioInvalidInput "current cluster must have CA crt path")
      match caResult with
      | Except.error e => Except.error e
      | Except.ok builder =>
        match current_user.user.exec with
        | some ex =>
          match execToken ex with
          | Except.ok tok => Except.ok (builder, some tok)
          | Except.error e => Except.error e
        | none =>
          match current_user.user.client_certificate_data with
          | some cert_data =>
            match decode cert_data with
            | none => Except.error (CfgError.ioInvalidInput "base64 decoding err")
            | some cert_pem =>
              match current_user.user.client_key_data with
              | none =>
                Except.error (CfgError.ioInvalidInput "current user must have client key data")
              | some key_data =>
                match decode key_data with
                | none => Except.error (CfgError.ioInvalidInput "base64 decoding err")
                | some key_pem =>
                  Except.ok (builder ++ [BuilderAction.loadClientCertData cert_pem key_pem],
                    none)
          | none =>
            match current_user.user.client_certificate with
            | some crt_path =>
              match current_user.user.client_key with
              | none =>
                Except.error (CfgError.ioInvalidInput "current user must have client key")
              | some key_path =>
                Except.ok (builder ++ [BuilderAction.loadClientCert crt_path key_path], none)
            | none =>
              match current_user.user.token with
              | some user_token => Except.ok (builder, some user_token)
              | none => Except.ok (builder, none)

/-- Kubeconfig of the C8 counterexample: a consistent config whose current
user carries no identity material at all. -/
def c8Config : KubeConfig :=
  { current_context := "ctx",
    contexts := [{ name := "ctx", context := { cluster := "cl", user := "u" } }],
    clusters := [{ name := "cl", cluster := { certificate_authority := some "/ca.crt", server := "https://k" } }],
    users := [{ name := "u", user := {} }] }

/-- Counterexample to claim C8: with no exec plugin, no inline cert data, no
cert path and no token, resolution succeeds with a builder holding only the
cluster CA and no bearer - it does not fail with the missing-identity error
(that branch is commented out in cert.rs). -/
theorem claim_C8_counterexample :
    configure_out_of_cluster (fun _ => some []) (fun _ => Except.error CfgError.panicked)
        c8Config
      = Except.ok ([BuilderAction.loadCA "/ca.crt"], none)
    ∧ configure_out_of_cluster (fun _ => some []) (fun _ => Except.error CfgError.panicked)
        c8Config
      ≠ Except.error
          (CfgError.ioInvalidInput "no client cert data, path, or user token were found") := by
  constructor
  · rfl
  · intro h
    simp [configure_out_of_cluster, c8Config, KubeConfig.currentUser,
      KubeConfig.currentCluster, KubeConfig.currentContext] at h

/-- Claim C8 as amended: during out-of-cluster resolution, when the current
user has no exec plugin, no inline client certificate data, no client
certificate path and no token, and the cluster CA is given by path,
resolution succeeds and returns the builder with the loaded CA, no client
identity, and no bearer token (the missing-identity error of the
specification is commented out in the source pending the alternate
auth-provider flow, whose token is resolved later by
ClientConfigBuilder::token). -/
theorem claim_C8_amended_no_identity_is_ok (decode : String → Option (List Nat))
    (execToken : ExecConfig → Except CfgError String) (cfg : KubeConfig)
    (u : User) (cl : Cluster) (path : String) :
    cfg.currentUser = some u → cfg.currentCluster = some cl →
    cl.cluster.certificate_authority_data = none →
    cl.cluster.certificate_authority = some path →
    u.user.exec = none → u.user.client_certificate_data = none →
    u.user.client_certificate = none → u.user.token = none →
    configure_out_of_cluster decode execToken cfg
      = Except.ok ([BuilderAction.loadCA path], none) := by
  intro h1 h2 h3 h4 h5 h6 h7 h8
  simp [configure_out_of_cluster, h1, h2, h3, h4, h5, h6, h7, h8]

/-- Witness for the amended claim C8 at the concrete counterexample config. -/
theorem claim_C8_witness :
    configure_out_of_cluster (fun _ => some []) (fun _ => Except.error CfgError.panicked)
        c8Config
      = Except.ok ([BuilderAction.loadCA "/ca.crt"], none) :=
  claim_C8_amended_no_identity_is_ok (fun _ => some [])
    (fun _ => Except.error CfgError.panicked) c8Config
    { name := "u", user := {} }
    { name := "cl", cluster := { certificate_authority := some "/ca.crt", server := "https://k" } }
    "/ca.crt" rfl rfl rfl rfl rfl rfl rfl rfl

/-! ## Watch-from-now (src/k8-metadata-client/src/client.rs,
MetadataClient::watch_stream_now). -/

/-- List metadata (ListMetadata in k8-types/src/metadata.rs). -/
structure ListMetadata where
  _continue : Option String := none
  resource_version : String := ""

/-- List result (K8List in k8-types/src/metadata.rs). -/
structure K8List (O : Type) where
  api_version : String := ""
  kind : String := ""
  metadata : ListMetadata := {}
  items : List O := []

/-- Watch event (K8Watch in k8-types/src/metadata.rs). -/
inductive K8Watch (O : Type) where
  | added (obj : O)
  | modified (obj : O)
  | deleted (obj : O)
deriving DecidableEq

/-- Embedding of MetadataClient::watch_stream_now: issue the list; on success
emit one stream element holding the synthetic ADDED events for every listed
item in list order, then chain the watch stream started from the list's
resourceVersion; on failure the stream is the single error element. The
stream is modelled as the list of its elements in emission order, and the
subsequent watch as a function of the resource version it is started from. -/
def watch_stream_now {E O : Type} (listResult : Except E (K8List O))
    (watch_stream_since :
      Option String → List (Except E (List (Except E (K8Watch O))))) :
    List (Except E (List (Except E (K8Watch O)))) :=
  match listResult with
  | Except.ok item_now_list =>
    let resource_version := item_now_list.metadata.resource_version
    let items_list := item_now_list.items.map (fun item => Except.ok (K8Watch.added item))
    Except.ok items_list :: watch_stream_since (some resource_version)
  | Except.error _err => [Except.error _err]

/-- Successfully delivered events of a token stream, in emission order. -/
def eventsOf {E O : Type}
    (stream : List (Except E (List (Except E (K8Watch O))))) : List (K8Watch O) :=
  (stream.map (fun t =>
    match t with
    | Except.ok l => l.filterMap (fun r =>
        match r with
        | Except.ok w => some w
        | Except.error _ => none)
    | Except.error _ => [])).flatten

/-- Claim C9: when the initial list succeeds, watch_stream_now first emits one
synthetic ADDED event per listed item in list order, all of them before any
event of the subsequent watch, which is started from the list's
resourceVersion. -/
theorem claim_C9_watch_from_now_ordering {E O : Type} (l : K8List O)
    (w : Option String → List (Except E (List (Except E (K8Watch O))))) :
    watch_stream_now (Except.ok l) w
      = Except.ok (l.items.map (fun i => Except.ok (K8Watch.added i)))
        :: w (some l.metadata.resource_version)
    ∧ eventsOf (watch_stream_now (Except.ok l) w)
      = l.items.map K8Watch.added ++ eventsOf (w (some l.metadata.resource_version)) := by
  constructor
  · rfl
  · have hitems : ∀ items : List O,
        (items.map (fun i => Except.ok (K8Watch.added i))).filterMap
          (fun r : Except E (K8Watch O) =>
            match r with
            | Except.ok w2 => some w2
            | Except.error _ => none)
          = items.map K8Watch.added := by
      intro items
      induction items with
      | nil => rfl
      | cons x xs ih => simp [ih]
    simp [watch_stream_now, eventsOf, hitems]

end K8Api
